import Mathlib

/-!
Verification of the rss2email feed-to-mail program (`rss2email.go`).

The program polls a list of feed URLs, and for each feed entry that has not
been delivered before, sends an email and records a "seen" marker on the
filesystem.  We give a shallow embedding of the program's functions:

* `GUID2Hash` — SHA-1 of the entry GUID, hex encoded (via `crypto/sha1` and
  `encoding/hex`; those library routines are embedded here in full).
* `HasSeen` / `RecordSeen` — the seen-marker store, over an explicit
  filesystem model `FS` in which `os.Stat` and `ioutil.WriteFile` may fail.
* `SendMail` — the error control-flow of the sendmail subprocess invocation,
  over an environment recording which of its fallible steps fail.
* `processItem` / `processItems` / `ProcessURL` — the per-entry loop body and
  the feed processor, with the fetch, parse and send collaborators as oracles.
* `trimSpace` / `startsWithHash` / `feedLines` / `mainRun` — the run driver.
-/

namespace Rss2Email

/-! ## SHA-1 (`crypto/sha1`) over byte lists, bytes as `Nat < 256` -/

/-- `2^32`, the word modulus of SHA-1's 32-bit arithmetic. -/
def M32 : Nat := 4294967296

/-- Rotate a 32-bit word left by `n` bits (`0 < n < 32`). -/
def rotl (n x : Nat) : Nat := ((x <<< n) % M32) ||| (x >>> (32 - n))

/-- Split 64 bytes into 16 big-endian 32-bit words. -/
def toWords : List Nat → List Nat
  | b0 :: b1 :: b2 :: b3 :: rest =>
      ((b0 <<< 24) ||| (b1 <<< 16) ||| (b2 <<< 8) ||| b3) :: toWords rest
  | _ => []

/-- One step of the message-schedule extension; `prev` holds the words
produced so far, most recent first, so `prev[2], prev[7], prev[13], prev[15]`
are `w[i-3], w[i-8], w[i-14], w[i-16]`. -/
def nextW (prev : List Nat) : Nat :=
  rotl 1 ((((prev.getD 2 0) ^^^ (prev.getD 7 0)) ^^^ (prev.getD 13 0)) ^^^ (prev.getD 15 0))

/-- Extend the (reversed) schedule by `n` further words. -/
def extendW : Nat → List Nat → List Nat
  | 0, acc => acc
  | n + 1, acc => extendW n (nextW acc :: acc)

/-- The full 80-word message schedule from the 16 chunk words. -/
def schedule (ws : List Nat) : List Nat :=
  (extendW 64 ws.reverse).reverse

/-- Round function and constant for round `i` (`fK i b c d`). -/
def fK (i b c d : Nat) : Nat × Nat :=
  if i < 20 then ((b &&& c) ||| ((b ^^^ 4294967295) &&& d), 1518500249)
  else if i < 40 then ((b ^^^ c) ^^^ d, 1859775393)
  else if i < 60 then (((b &&& c) ||| (b &&& d)) ||| (c &&& d), 2400959708)
  else ((b ^^^ c) ^^^ d, 3395469782)

/-- One SHA-1 round: state `(a,b,c,d,e)`, round index and schedule word. -/
def sha1Round (st : Nat × Nat × Nat × Nat × Nat) (iw : Nat × Nat) :
    Nat × Nat × Nat × Nat × Nat :=
  let a := st.1; let b := st.2.1; let c := st.2.2.1; let d := st.2.2.2.1
  let e := st.2.2.2.2
  let fk := fK iw.1 b c d
  ((rotl 5 a + fk.1 + e + fk.2 + iw.2) % M32, a, rotl 30 b, c, d)

/-- Process one 64-byte chunk, updating the hash state. -/
def processChunk (h : Nat × Nat × Nat × Nat × Nat) (chunk : List Nat) :
    Nat × Nat × Nat × Nat × Nat :=
  let ws := schedule (toWords chunk)
  let r := ((List.range 80).zip ws).foldl sha1Round h
  ((h.1 + r.1) % M32, (h.2.1 + r.2.1) % M32, (h.2.2.1 + r.2.2.1) % M32,
   (h.2.2.2.1 + r.2.2.2.1) % M32, (h.2.2.2.2 + r.2.2.2.2) % M32)

/-- The 8-byte big-endian encoding of the 64-bit message length. -/
def lenBytes64 (n : Nat) : List Nat :=
  [(n >>> 56) % 256, (n >>> 48) % 256, (n >>> 40) % 256, (n >>> 32) % 256,
   (n >>> 24) % 256, (n >>> 16) % 256, (n >>> 8) % 256, n % 256]

/-- SHA-1 padding: a `0x80` byte, zeros to 56 mod 64, then the bit length. -/
def padMessage (m : List Nat) : List Nat :=
  m ++ 128 :: List.replicate ((119 - (m.length % 64)) % 64) 0
    ++ lenBytes64 ((8 * m.length) % 18446744073709551616)

/-- Split a byte list into 64-byte chunks (structural recursion on a fuel
argument so that the definition reduces in the kernel; the fuel
`l.length` always suffices since each step drops at least one byte). -/
def chunksGo : Nat → List Nat → List (List Nat)
  | _, [] => []
  | 0, _ :: _ => []
  | fuel + 1, b :: bs => ((b :: bs).take 64) :: chunksGo fuel ((b :: bs).drop 64)

/-- Split a byte list into 64-byte chunks. -/
def chunks64 (l : List Nat) : List (List Nat) := chunksGo l.length l

/-- SHA-1 initial state. -/
def initH : Nat × Nat × Nat × Nat × Nat :=
  (1732584193, 4023233417, 2562383102, 271733878, 3285377520)

/-- The 4-byte big-endian encoding of a 32-bit word. -/
def word2bytes (x : Nat) : List Nat :=
  [(x >>> 24) % 256, (x >>> 16) % 256, (x >>> 8) % 256, x % 256]

/-- The SHA-1 digest (20 bytes) of a byte list: `sha1.Sum` in Go. -/
def sha1Bytes (m : List Nat) : List Nat :=
  let h := (chunks64 (padMessage m)).foldl processChunk initH
  word2bytes h.1 ++ word2bytes h.2.1 ++ word2bytes h.2.2.1
    ++ word2bytes h.2.2.2.1 ++ word2bytes h.2.2.2.2

/-! ## Hex encoding (`encoding/hex`) and UTF-8 bytes of a string -/

/-- The lowercase hex digit for `r < 16` (Go's `hextable` lookup). -/
def hexDigitRaw : Nat → Char
  | 0 => '0' | 1 => '1' | 2 => '2' | 3 => '3' | 4 => '4'
  | 5 => '5' | 6 => '6' | 7 => '7' | 8 => '8' | 9 => '9'
  | 10 => 'a' | 11 => 'b' | 12 => 'c' | 13 => 'd' | 14 => 'e'
  | _ => 'f'

/-- Total form of the hex digit table. -/
def hexDigit (n : Nat) : Char := hexDigitRaw (n % 16)

/-- `hex.EncodeToString`: each byte `b` becomes `hextable[b>>4], hextable[b&15]`. -/
def hexEncode : List Nat → List Char
  | [] => []
  | b :: bs => hexDigit (b / 16) :: hexDigit (b % 16) :: hexEncode bs

/-- UTF-8 bytes of one character (Go's `[]byte(string)` conversion). -/
def utf8Bytes (c : Char) : List Nat :=
  let n := c.toNat
  if n < 128 then [n]
  else if n < 2048 then [192 ||| (n >>> 6), 128 ||| (n % 64)]
  else if n < 65536 then
    [224 ||| (n >>> 12), 128 ||| ((n >>> 6) % 64), 128 ||| (n % 64)]
  else
    [240 ||| (n >>> 18), 128 ||| ((n >>> 12) % 64), 128 ||| ((n >>> 6) % 64),
     128 ||| (n % 64)]

/-- The UTF-8 byte sequence of a string. -/
def strBytes (s : String) : List Nat := s.data.flatMap utf8Bytes

/-- `GUID2Hash` (rss2email.go:225): the SHA-1 hash of a GUID, hex encoded.
A total pure function of the input string: no error path, no side effect. -/
def GUID2Hash (guid : String) : String :=
  ⟨hexEncode (sha1Bytes (strBytes guid))⟩

/-- Is `c` one of the 16 lowercase hexadecimal digit characters? -/
def isLowerHexDigit (c : Char) : Bool :=
  c == '0' || c == '1' || c == '2' || c == '3' || c == '4' || c == '5' ||
  c == '6' || c == '7' || c == '8' || c == '9' || c == 'a' || c == 'b' ||
  c == 'c' || c == 'd' || c == 'e' || c == 'f'

/-! ## The seen-marker store (`HasSeen` / `RecordSeen`)

The Go store is the filesystem: one file `$HOME/.rss2email/seen/<sha>` per
delivered entry, where `<sha>` is `GUID2Hash` of the entry's GUID.  `FS`
models that directory as an association list from file name to contents,
together with two failure oracles: `statFail name` says that `os.Stat` on
`seen/<name>` fails with an error other than "does not exist" (for example
a permission error), and `writeFail name` says that `ioutil.WriteFile` of
`seen/<name>` fails. -/

/-- A feed entry as produced by the feed parser (`gofeed.Item`), restricted
to the fields the program reads. -/
structure Item where
  GUID : String
  Link : String
  Title : String
  Content : String
deriving DecidableEq, Repr

/-- The `seen` directory plus storage-failure oracles. -/
structure FS where
  files : List (String × String)
  statFail : String → Bool
  writeFail : String → Bool

/-- First-match association-list lookup (newest entry first). -/
def lookupFile : List (String × String) → String → Option String
  | [], _ => none
  | (k, v) :: rest, name => if k == name then some v else lookupFile rest name

/-- Does a marker file with this name exist? -/
def containsFile (l : List (String × String)) (name : String) : Bool :=
  (lookupFile l name).isSome

/-- Outcome of `os.Stat` on a seen-marker file. -/
inductive StatErr where
  | ok
  | notExist
  | otherErr
deriving DecidableEq, Repr

/-- `os.Stat` on `seen/<name>`: an injected failure gives some non-NotExist
error, otherwise the result reflects whether the file exists. -/
def statSeen (fs : FS) (name : String) : StatErr :=
  if fs.statFail name then .otherErr
  else if containsFile fs.files name then .ok
  else .notExist

/-- `os.IsNotExist` applied to the (possibly nil) error from `os.Stat`. -/
def osIsNotExist : StatErr → Bool
  | .notExist => true
  | _ => false

/-- `HasSeen` (rss2email.go:237): stat the marker file for the SHA-1 of the
item's GUID; return `false` when the error is "does not exist", `true` in
every other case — including when `os.Stat` failed with some other error. -/
def HasSeen (fs : FS) (item : Item) : Bool :=
  if osIsNotExist (statSeen fs (GUID2Hash item.GUID)) then false else true

/-- `RecordSeen` (rss2email.go:247): write the item's link to the marker
file named by the SHA-1 of its GUID.  The Go function returns nothing and
discards the `ioutil.WriteFile` error (`_ = ioutil.WriteFile(...)`; the
`os.MkdirAll` error is ignored too), so the second component — the error
the caller receives — is always `none`. -/
def RecordSeen (fs : FS) (item : Item) : FS × Option String :=
  if fs.writeFail (GUID2Hash item.GUID) then (fs, none)
  else ({ fs with files := (GUID2Hash item.GUID, item.Link) :: fs.files }, none)

/-! ## `SendMail`

`SendMail` (rss2email.go:96) composes a MIME message and pipes it to
`/usr/sbin/sendmail`.  Its message composition (quoted-printable encoding
into a `bytes.Buffer` and template rendering) cannot fail — and the
`t.Execute` error at rss2email.go:142 is in fact never checked — so the
embedding tracks only the fallible subprocess steps, as an environment of
outcome oracles, and returns the error value the Go function returns. -/

/-- Outcomes of the fallible steps of one sendmail invocation. -/
structure MailEnv where
  stdinPipeOk : Bool
  stdoutPipeOk : Bool
  writeOk : Bool
  readOk : Bool
  exitZero : Bool
deriving DecidableEq, Repr

/-- The error result of `SendMail` (rss2email.go:96-194).  Mirrors the Go
control flow: empty recipient, `StdinPipe`, `StdoutPipe` and the pipe write
each return their error; a `ReadAll` failure returns `nil`
(rss2email.go:182); and a `sendmail.Wait()` failure — a non-zero exit —
is only logged, after which the function returns `nil` (rss2email.go:193). -/
def SendMail (env : MailEnv) (addr _subject _textstr _htmlstr : String) :
    Option String :=
  if addr == "" then some "Empty recipient address, is LOGNAME set?"
  else if !env.stdinPipeOk then some "stdin pipe error"
  else if !env.stdoutPipeOk then some "stdout pipe error"
  else if !env.writeOk then some "write to sendmail pipe failed"
  else if !env.readOk then none
  else none

/-! ## `ProcessURL`

The fetcher, parser and mailer are collaborators; the embedding takes them
as oracles: `fetch : String → Except String String` for `FetchFeed`,
`parse : String → Except String (List Item)` for `gofeed.ParseString`, and
`sendErr : Item → Option String` for the result of
`SendMail(os.Getenv("LOGNAME"), i.Title, html2text(i.Content), i.Content)`
on a given item.  `ProcessURL` returns no error to its caller: its result
is the updated store, the list of items for which `SendMail` was invoked,
and the error log lines it printed. -/

/-- Result of the per-entry loop body: the store afterwards, and whether
`SendMail` and `RecordSeen` were invoked for this entry. -/
structure StepOut where
  fs : FS
  sendCalled : Bool
  recordCalled : Bool

/-- The body of `ProcessURL`'s entry loop (rss2email.go:284-304): if the
entry has not been seen, send the mail, and only if `SendMail` returned no
error, record it as seen. -/
def processItem (sendErr : Item → Option String) (fs : FS) (i : Item) :
    StepOut :=
  if HasSeen fs i then ⟨fs, false, false⟩
  else
    match sendErr i with
    | none => ⟨(RecordSeen fs i).1, true, true⟩
    | some _ => ⟨fs, true, false⟩

/-- The entry loop over a feed's items, in parser order; returns the final
store and the items for which `SendMail` was invoked. -/
def processItems (sendErr : Item → Option String) :
    FS → List Item → FS × List Item
  | fs, [] => (fs, [])
  | fs, i :: rest =>
    let st := processItem sendErr fs i
    let r := processItems sendErr st.fs rest
    (r.1, (if st.sendCalled then [i] else []) ++ r.2)

/-- `ProcessURL` (rss2email.go:258): fetch, parse, then process each entry.
On fetch or parse failure the error is logged and the function returns —
its return type carries no error channel, so no error reaches the caller. -/
def ProcessURL (fetch : String → Except String String)
    (parse : String → Except String (List Item))
    (sendErr : Item → Option String) (fs : FS) (url : String) :
    FS × List Item × List String :=
  match fetch url with
  | .error e => (fs, [], ["Error processing " ++ url ++ " - " ++ e])
  | .ok txt =>
    match parse txt with
    | .error e => (fs, [], ["Error parsing " ++ url ++ " contents: " ++ e])
    | .ok items =>
      let r := processItems sendErr fs items
      (r.1, r.2, [])

/-! ## The run driver (`main`) -/

/-- Go's `unicode.IsSpace`: the Unicode white-space property, which in the
Latin-1 range is `\t`, `\n`, `\v`, `\f`, `\r`, space, U+0085 and U+00A0. -/
def goIsSpace (c : Char) : Bool :=
  c == ' ' || c == '\t' || c == '\n' || c.toNat == 11 || c.toNat == 12 ||
  c == '\r' || c.toNat == 133 || c.toNat == 160 || c.toNat == 5760 ||
  (8192 ≤ c.toNat && c.toNat ≤ 8202) || c.toNat == 8232 || c.toNat == 8233 ||
  c.toNat == 8239 || c.toNat == 8287 || c.toNat == 12288

/-- `strings.TrimSpace`: drop leading and trailing white space. -/
def trimSpace (s : String) : String :=
  ⟨((s.data.dropWhile goIsSpace).reverse.dropWhile goIsSpace).reverse⟩

/-- `strings.HasPrefix(s, "#")`. -/
def startsWithHash (s : String) : Bool :=
  match s.data with
  | c :: _ => c == '#'
  | [] => false

/-- The scanner loop of `main` (rss2email.go:337-347): trim each line, and
pass it to `ProcessURL` unless it is empty or begins with `#`.  Returns the
URLs passed, in file order. -/
def feedLines : List String → List String
  | [] => []
  | l :: ls =>
    let tmp := trimSpace l
    if tmp != "" && !startsWithHash tmp then tmp :: feedLines ls
    else feedLines ls

/-- The observable outcome of one run of `main`. -/
structure MainOut where
  exitCode : Nat
  processed : List String
  log : List String
deriving DecidableEq, Repr

/-- `main` (rss2email.go:308-348) with the default flags (no `-version`).
`openResult` is the outcome of `os.Open` on `$HOME/.rss2email/feeds`: on
error, `main` prints the error and plain-returns, so the process exits with
status `0`; otherwise it scans the lines and processes each feed URL. -/
def mainRun (home : String) (openResult : Except String (List String)) :
    MainOut :=
  match openResult with
  | .error e =>
    ⟨0, [], ["Error opening " ++ home ++ "/.rss2email/feeds - " ++ e]⟩
  | .ok lines => ⟨0, feedLines lines, []⟩

/-! ## Concrete fixtures used by witnesses and counterexamples -/

/-- A store with no markers and no storage failures. -/
def cleanFS : FS := ⟨[], fun _ => false, fun _ => false⟩

/-- A store with no markers in which every `os.Stat` fails with an error
other than "does not exist" (for example a permission error). -/
def statFailFS : FS := ⟨[], fun _ => true, fun _ => false⟩

/-- A store with no markers in which every `ioutil.WriteFile` fails. -/
def writeFailFS : FS := ⟨[], fun _ => false, fun _ => true⟩

/-- A sample feed entry. -/
def sampleItem : Item :=
  ⟨"guid-a", "https://example.com/a", "Title A", "<p>body A</p>"⟩

/-- An entry with the same GUID as `sampleItem` but different link, title
and content. -/
def sampleItem2 : Item :=
  ⟨"guid-a", "https://example.com/b", "Title B", "<p>body B</p>"⟩

/-- An entry with a GUID different from `sampleItem`'s. -/
def sampleItemB : Item :=
  ⟨"guid-b", "https://example.com/b", "Title B", "<p>body B</p>"⟩

/-- A mailer oracle on which every delivery succeeds. -/
def okSend : Item → Option String := fun _ => none

/-- A mailer oracle on which every delivery fails. -/
def failSend : Item → Option String := fun _ => some "sendmail failure"

/-- A fetcher that returns fixed feed text. -/
def fetch0 : String → Except String String := fun _ => .ok "feed-xml"

/-- A fetcher that fails with a transport error. -/
def fetchFail : String → Except String String :=
  fun _ => .error "connection refused"

/-- A parser that yields two entries with distinct GUIDs. -/
def parse0 : String → Except String (List Item) :=
  fun _ => .ok [sampleItem, sampleItemB]

/-- A parser that fails on any input. -/
def parseFail : String → Except String (List Item) :=
  fun _ => .error "malformed feed"

/-! ## Helper lemmas -/

-- The embedded SHA-1 agrees with the standard test vectors for "abc" and "".
set_option maxRecDepth 10000 in
example : GUID2Hash "abc" = "a9993e364706816aba3e25717850c26c9cd0d89d" := by
  decide

set_option maxRecDepth 10000 in
example : GUID2Hash "" = "da39a3ee5e6b4b0d3255bfef95601890afd80709" := by
  decide

theorem hexDigitRaw_isLower : ∀ r < 16, isLowerHexDigit (hexDigitRaw r) = true := by
  decide

theorem hexDigit_isLower (n : Nat) : isLowerHexDigit (hexDigit n) = true :=
  hexDigitRaw_isLower (n % 16) (Nat.mod_lt n (by decide))

theorem hexEncode_length (bs : List Nat) :
    (hexEncode bs).length = 2 * bs.length := by
  induction bs with
  | nil => rfl
  | cons b t ih => simp [hexEncode, ih]; omega

theorem hexEncode_all (bs : List Nat) :
    (hexEncode bs).all isLowerHexDigit = true := by
  induction bs with
  | nil => rfl
  | cons b t ih => simp_all [hexEncode, hexDigit_isLower]

theorem sha1Bytes_length (m : List Nat) : (sha1Bytes m).length = 20 := by
  simp [sha1Bytes, word2bytes]

theorem recordSeen_statFail (fs : FS) (i : Item) :
    (RecordSeen fs i).1.statFail = fs.statFail := by
  unfold RecordSeen; split <;> rfl

theorem recordSeen_writeFail (fs : FS) (i : Item) :
    (RecordSeen fs i).1.writeFail = fs.writeFail := by
  unfold RecordSeen; split <;> rfl

theorem processItem_statFail (se : Item → Option String) (fs : FS) (i : Item) :
    (processItem se fs i).fs.statFail = fs.statFail := by
  by_cases hs : HasSeen fs i <;>
    rcases hse : se i with _ | e <;>
      simp [processItem, hs, hse, recordSeen_statFail]

theorem processItem_writeFail (se : Item → Option String) (fs : FS) (i : Item) :
    (processItem se fs i).fs.writeFail = fs.writeFail := by
  by_cases hs : HasSeen fs i <;>
    rcases hse : se i with _ | e <;>
      simp [processItem, hs, hse, recordSeen_writeFail]

theorem processItems_statFail (se : Item → Option String) :
    ∀ (l : List Item) (fs : FS),
      (processItems se fs l).1.statFail = fs.statFail := by
  intro l
  induction l with
  | nil => intro fs; rfl
  | cons i rest ih =>
    intro fs
    simp [processItems, ih, processItem_statFail]

theorem processItems_writeFail (se : Item → Option String) :
    ∀ (l : List Item) (fs : FS),
      (processItems se fs l).1.writeFail = fs.writeFail := by
  intro l
  induction l with
  | nil => intro fs; rfl
  | cons i rest ih =>
    intro fs
    simp [processItems, ih, processItem_writeFail]

theorem containsFile_recordSeen (fs : FS) (i : Item) (k : String)
    (h : containsFile fs.files k = true) :
    containsFile (RecordSeen fs i).1.files k = true := by
  unfold RecordSeen
  split
  · exact h
  · simp only [containsFile, lookupFile]
    split
    · rfl
    · exact h

theorem containsFile_processItem (se : Item → Option String) (fs : FS)
    (i : Item) (k : String) (h : containsFile fs.files k = true) :
    containsFile (processItem se fs i).fs.files k = true := by
  by_cases hs : HasSeen fs i <;>
    rcases hse : se i with _ | e <;>
      simp [processItem, hs, hse, h, containsFile_recordSeen]

theorem containsFile_processItems (se : Item → Option String) :
    ∀ (l : List Item) (fs : FS) (k : String),
      containsFile fs.files k = true →
      containsFile (processItems se fs l).1.files k = true := by
  intro l
  induction l with
  | nil => intro fs k h; exact h
  | cons i rest ih =>
    intro fs k h
    simp only [processItems]
    exact ih _ _ (containsFile_processItem se fs i k h)

theorem hasSeen_of_containsFile (fs : FS) (i : Item)
    (h : containsFile fs.files (GUID2Hash i.GUID) = true) :
    HasSeen fs i = true := by
  by_cases hs : fs.statFail (GUID2Hash i.GUID) <;>
    simp [HasSeen, statSeen, h, hs, osIsNotExist]

theorem containsFile_of_hasSeen (fs : FS) (i : Item)
    (hstat : fs.statFail (GUID2Hash i.GUID) = false)
    (h : HasSeen fs i = true) :
    containsFile fs.files (GUID2Hash i.GUID) = true := by
  rcases hc : containsFile fs.files (GUID2Hash i.GUID) with _ | _
  · simp [HasSeen, statSeen, hstat, hc, osIsNotExist] at h
  · rfl

theorem allSeen_after_run (se : Item → Option String) :
    ∀ (items : List Item) (fs : FS),
      (∀ s, fs.statFail s = false) →
      (∀ s, fs.writeFail s = false) →
      (∀ i ∈ items, se i = none) →
      ∀ i ∈ items, HasSeen (processItems se fs items).1 i = true := by
  intro items
  induction items with
  | nil => intro fs _ _ _ i hi; cases hi
  | cons j rest ih =>
    intro fs hstat hwrite hsend i hi
    simp only [processItems]
    have hstat2 : ∀ s, (processItem se fs j).fs.statFail s = false := by
      intro s; rw [processItem_statFail]; exact hstat s
    have hwrite2 : ∀ s, (processItem se fs j).fs.writeFail s = false := by
      intro s; rw [processItem_writeFail]; exact hwrite s
    rcases List.mem_cons.mp hi with hij | hir
    · subst hij
      have hcont : containsFile (processItem se fs i).fs.files (GUID2Hash i.GUID) = true := by
        by_cases hs : HasSeen fs i
        · exact containsFile_processItem se fs i _
            (containsFile_of_hasSeen fs i (hstat _) hs)
        · have hsome : se i = none := hsend i (List.mem_cons_self i rest)
          have hstep : (processItem se fs i).fs = (RecordSeen fs i).1 := by
            simp [processItem, hs, hsome]
          rw [hstep]
          unfold RecordSeen
          rw [hwrite (GUID2Hash i.GUID)]
          simp [containsFile, lookupFile]
      exact hasSeen_of_containsFile _ _
        (containsFile_processItems se rest _ _ hcont)
    · exact ih (processItem se fs j).fs hstat2 hwrite2
        (fun x hx => hsend x (List.mem_cons_of_mem j hx)) i hir

theorem processItems_no_send (se : Item → Option String) :
    ∀ (items : List Item) (fs : FS),
      (∀ i ∈ items, HasSeen fs i = true) →
      processItems se fs items = (fs, []) := by
  intro items
  induction items with
  | nil => intro fs _; rfl
  | cons i rest ih =>
    intro fs h
    have hi : HasSeen fs i = true := h i (List.mem_cons_self i rest)
    simp only [processItems, processItem, hi, if_true]
    rw [ih fs (fun x hx => h x (List.mem_cons_of_mem i hx))]
    simp

theorem lookup_recordSeen (fs : FS) (j : Item)
    (hw : fs.writeFail (GUID2Hash j.GUID) = false) :
    lookupFile (RecordSeen fs j).1.files (GUID2Hash j.GUID) = some j.Link := by
  simp [RecordSeen, hw, lookupFile]

/-! ## Claim theorems -/

/-- Claim C1: for an entry not yet seen, the per-entry loop body of
`ProcessURL` (rss2email.go:284-304) invokes `SendMail`, invokes `RecordSeen`
exactly when `SendMail` returned no error, and on a send error leaves the
store unchanged — so `HasSeen` for that entry remains false and a later run
(with any send oracle) attempts delivery again. -/
theorem processItem_record_iff_send (se se2 : Item → Option String)
    (fs : FS) (i : Item) (h : HasSeen fs i = false) :
    ((processItem se fs i).recordCalled = true ↔ se i = none) ∧
    (processItem se fs i).sendCalled = true ∧
    (∀ e, se i = some e →
      (processItem se fs i).fs = fs ∧
      HasSeen (processItem se fs i).fs i = false ∧
      (processItem se2 (processItem se fs i).fs i).sendCalled = true) := by
  have hb : ¬ HasSeen fs i = true := by simp [h]
  rcases hse : se i with _ | e
  · refine ⟨by simp [processItem, hb, hse], by simp [processItem, hb, hse], ?_⟩
    intro e2 he2
    exact Option.noConfusion he2
  · refine ⟨by simp [processItem, hb, hse], by simp [processItem, hb, hse], ?_⟩
    intro e2 _
    have hfs : (processItem se fs i).fs = fs := by simp [processItem, hb, hse]
    refine ⟨hfs, ?_, ?_⟩
    · rw [hfs]; exact h
    · rw [hfs]
      rcases hse2 : se2 i with _ | e3 <;> simp [processItem, hb, hse2]

/-- Witness for C1 at a concrete unseen entry and failing mailer. -/
theorem processItem_record_iff_send_witness :
    HasSeen cleanFS sampleItem = false ∧
    ((processItem failSend cleanFS sampleItem).recordCalled = true ↔
      failSend sampleItem = none) :=
  ⟨rfl,
   (processItem_record_iff_send failSend okSend cleanFS sampleItem rfl).1⟩

/-- Claim C2 counterexample: with an empty store on which `os.Stat` fails
with an error other than "does not exist", `HasSeen` returns `true` even
though no marker exists — the code is fail-closed on such failures, not
fail-open as the claim states. -/
theorem hasSeen_statfail_counterexample :
    HasSeen statFailFS sampleItem = true ∧
    lookupFile statFailFS.files (GUID2Hash sampleItem.GUID) = none :=
  ⟨rfl, rfl⟩

/-- Claim C2 (amended): `HasSeen` returns `false` exactly when the marker is
absent and the existence check reported "does not exist"; a present marker
or any other storage access failure makes it return `true` (fail-closed). -/
theorem hasSeen_false_iff (fs : FS) (item : Item) :
    HasSeen fs item = false ↔
      (fs.statFail (GUID2Hash item.GUID) = false ∧
       containsFile fs.files (GUID2Hash item.GUID) = false) := by
  by_cases h1 : fs.statFail (GUID2Hash item.GUID) <;>
    by_cases h2 : containsFile fs.files (GUID2Hash item.GUID) <;>
      simp [HasSeen, statSeen, osIsNotExist, h1, h2]

/-- Witness for C2 (amended) at a concrete clean store. -/
theorem hasSeen_false_iff_witness :
    HasSeen cleanFS sampleItem = false ↔
      (cleanFS.statFail (GUID2Hash sampleItem.GUID) = false ∧
       containsFile cleanFS.files (GUID2Hash sampleItem.GUID) = false) :=
  hasSeen_false_iff cleanFS sampleItem

/-- Claim C3 (code bug): with a non-empty recipient, working pipes, and a
sendmail subprocess that exits with a non-zero status, `SendMail` returns
no error (rss2email.go:188-193 logs the `Wait` failure and then returns
`nil`); a pipe error while writing the message, by contrast, does produce
an error as the claim says. -/
theorem sendmail_nonzero_exit_no_error :
    SendMail ⟨true, true, true, true, false⟩ "user" "subj" "text" "html" =
      none ∧
    SendMail ⟨true, true, false, true, true⟩ "user" "subj" "text" "html" =
      some "write to sendmail pipe failed" :=
  ⟨rfl, rfl⟩

/-- Claim C4: if fetching and parsing a URL succeed and every delivery and
storage operation succeeds, then running `ProcessURL` twice on the same
feed sends no email in the second run: every entry is found seen and
`SendMail` is never invoked. -/
theorem processURL_second_run_sends_nothing
    (fetch : String → Except String String)
    (parse : String → Except String (List Item))
    (se : Item → Option String) (fs : FS) (url txt : String)
    (items : List Item)
    (hf : fetch url = Except.ok txt) (hp : parse txt = Except.ok items)
    (hsend : ∀ i ∈ items, se i = none)
    (hstat : ∀ s, fs.statFail s = false)
    (hwrite : ∀ s, fs.writeFail s = false) :
    (ProcessURL fetch parse se (ProcessURL fetch parse se fs url).1 url).2.1 =
      [] := by
  have hseen : ∀ i ∈ items, HasSeen (processItems se fs items).1 i = true :=
    allSeen_after_run se items fs hstat hwrite hsend
  simp only [ProcessURL, hf, hp]
  rw [processItems_no_send se items (processItems se fs items).1 hseen]

/-- Witness for C4: a clean store, a feed of two entries, all deliveries
succeeding; the second run sends nothing. -/
theorem processURL_second_run_sends_nothing_witness :
    (ProcessURL fetch0 parse0 okSend
        (ProcessURL fetch0 parse0 okSend cleanFS "https://example.com/feed").1
        "https://example.com/feed").2.1 = [] :=
  processURL_second_run_sends_nothing fetch0 parse0 okSend cleanFS
    "https://example.com/feed" "feed-xml" [sampleItem, sampleItemB]
    rfl rfl (fun _ _ => rfl) (fun _ => rfl) (fun _ => rfl)

/-- Claim C5 counterexample: on a store whose write fails, `RecordSeen`
leaves the store unchanged (the marker is not persisted) and still reports
no error to its caller — the Go function returns nothing and discards the
`ioutil.WriteFile` error, so the failure is not observable by the caller. -/
theorem recordSeen_discards_write_error :
    (RecordSeen writeFailFS sampleItem).2 = none ∧
    (RecordSeen writeFailFS sampleItem).1 = writeFailFS :=
  ⟨rfl, rfl⟩

/-- Claim C5 (amended): `RecordSeen` never reports a persistence failure to
its caller — its returned error is always `none` — and a failed write
leaves the store unchanged, so the entry stays unmarked (to be redelivered
on the next run); the run itself is not aborted. -/
theorem recordSeen_reports_nothing (fs : FS) (item : Item) :
    (RecordSeen fs item).2 = none ∧
    (fs.writeFail (GUID2Hash item.GUID) = true →
      (RecordSeen fs item).1 = fs ∧
      HasSeen (RecordSeen fs item).1 item = HasSeen fs item) := by
  constructor
  · unfold RecordSeen; split <;> rfl
  · intro hw
    have h1 : (RecordSeen fs item).1 = fs := by simp [RecordSeen, hw]
    exact ⟨h1, by rw [h1]⟩

/-- Witness for C5 (amended) at a concrete always-failing store. -/
theorem recordSeen_reports_nothing_witness :
    (RecordSeen writeFailFS sampleItemB).2 = none ∧
    (writeFailFS.writeFail (GUID2Hash sampleItemB.GUID) = true →
      (RecordSeen writeFailFS sampleItemB).1 = writeFailFS ∧
      HasSeen (RecordSeen writeFailFS sampleItemB).1 sampleItemB =
        HasSeen writeFailFS sampleItemB) :=
  recordSeen_reports_nothing writeFailFS sampleItemB

/-- Claim C6 counterexample: when the feed-list file cannot be opened,
`main` (rss2email.go:326-330) logs the error and plain-returns, so the
process exits with status `0` — not the non-zero status the claim asserts —
while indeed processing no feeds. -/
theorem main_open_error_exit_zero :
    mainRun "/home/user" (Except.error "no such file or directory") =
      ⟨0, [],
       ["Error opening /home/user/.rss2email/feeds - no such file or directory"]⟩ :=
  rfl

/-- Claim C6 (amended): if the feed-list file cannot be opened, the run
aborts immediately, processing no feeds and logging the error, but the
process exit status is `0`, not non-zero. -/
theorem main_open_error_aborts (home e : String) :
    (mainRun home (Except.error e)).processed = [] ∧
    (mainRun home (Except.error e)).exitCode = 0 ∧
    (mainRun home (Except.error e)).log ≠ [] := by
  refine ⟨rfl, rfl, ?_⟩
  simp [mainRun]

/-- Witness for C6 (amended) at a concrete open error. -/
theorem main_open_error_aborts_witness :
    (mainRun "/root" (Except.error "permission denied")).processed = [] ∧
    (mainRun "/root" (Except.error "permission denied")).exitCode = 0 ∧
    (mainRun "/root" (Except.error "permission denied")).log ≠ [] :=
  main_open_error_aborts "/root" "permission denied"

/-- Claim C7: for every string, `GUID2Hash` returns a 40-character string
of lowercase hexadecimal digits, and is deterministic — equal inputs give
equal outputs.  It is a total pure function: no error path, no side
effect. -/
theorem guid2hash_hex40_deterministic (guid : String) :
    (GUID2Hash guid).length = 40 ∧
    (GUID2Hash guid).data.all isLowerHexDigit = true ∧
    (∀ g2 : String, g2 = guid → GUID2Hash g2 = GUID2Hash guid) := by
  refine ⟨?_, ?_, ?_⟩
  · show (hexEncode (sha1Bytes (strBytes guid))).length = 40
    rw [hexEncode_length, sha1Bytes_length]
  · exact hexEncode_all _
  · intro g2 h
    rw [h]

/-- Witness for C7 at a concrete GUID. -/
theorem guid2hash_hex40_deterministic_witness :
    (GUID2Hash "guid-a").length = 40 ∧
    GUID2Hash "guid-a" = GUID2Hash "guid-a" :=
  ⟨(guid2hash_hex40_deterministic "guid-a").1,
   (guid2hash_hex40_deterministic "guid-a").2.2 "guid-a" rfl⟩

/-- Claim C8: the run driver's scanner loop trims each feed-list line and
passes exactly the lines whose trimmed form is non-empty and does not start
with `#`, verbatim after trimming and in file order. -/
theorem feedLines_filter_spec (lines : List String) :
    feedLines lines =
      (lines.map trimSpace).filter
        (fun t => t != "" && !startsWithHash t) := by
  induction lines with
  | nil => rfl
  | cons l ls ih =>
    by_cases h : (trimSpace l != "" && !startsWithHash (trimSpace l)) = true <;>
      simp [feedLines, List.filter, h, ih]

/-- Witness for C8 at the spec's example lines: blank, whitespace-only and
comment lines are dropped; a URL line is passed verbatim after trimming. -/
theorem feedLines_filter_spec_witness :
    feedLines ["", "   ", "# comment", " https://example.com/feed "] =
      ((["", "   ", "# comment", " https://example.com/feed "].map trimSpace).filter
        (fun t => t != "" && !startsWithHash t)) :=
  feedLines_filter_spec ["", "   ", "# comment", " https://example.com/feed "]

-- The driver loop on the spec's example lines passes exactly the URL.
example :
    feedLines ["", "   ", "# comment", " https://example.com/feed "] =
      ["https://example.com/feed"] := by decide

/-- Claim C9: `ProcessURL` raises no error to its caller; when the fetch
fails, or the fetch succeeds but the parse fails, it logs the error and
returns with the store unchanged and no entry processed, so the run driver
proceeds to the next URL. -/
theorem processURL_error_skips_feed
    (fetch : String → Except String String)
    (parse : String → Except String (List Item))
    (se : Item → Option String) (fs : FS) (url : String)
    (h : ∀ txt, fetch url = Except.ok txt →
      ∀ items, parse txt ≠ Except.ok items) :
    (ProcessURL fetch parse se fs url).1 = fs ∧
    (ProcessURL fetch parse se fs url).2.1 = [] ∧
    (ProcessURL fetch parse se fs url).2.2 ≠ [] := by
  rcases hf : fetch url with e | txt
  · simp [ProcessURL, hf]
  · rcases hp : parse txt with e | items
    · simp [ProcessURL, hf, hp]
    · exact absurd hp (h txt hf items)

/-- Witness for C9 at a concrete failing fetcher. -/
theorem processURL_error_skips_feed_witness :
    (ProcessURL fetchFail parse0 okSend cleanFS "https://bad.example").1 =
      cleanFS ∧
    (ProcessURL fetchFail parse0 okSend cleanFS "https://bad.example").2.1 =
      [] ∧
    (ProcessURL fetchFail parse0 okSend cleanFS "https://bad.example").2.2 ≠
      [] :=
  processURL_error_skips_feed fetchFail parse0 okSend cleanFS
    "https://bad.example" (fun _ hf _ => Except.noConfusion hf)

/-- Claim C10: delivery identity depends only on the GUID.  `HasSeen` gives
the same answer for two entries with equal GUIDs; once one of them is
recorded (with a working write), the other is seen and the entry loop never
invokes `SendMail` for it; and a repeated `RecordSeen` merely overwrites the
advisory payload with the newer entry's link. -/
theorem seen_identity_guid_only (se2 : Item → Option String) (fs : FS)
    (i j : Item) (hg : i.GUID = j.GUID)
    (hw : fs.writeFail (GUID2Hash i.GUID) = false) :
    HasSeen fs i = HasSeen fs j ∧
    HasSeen (RecordSeen fs i).1 j = true ∧
    (processItem se2 (RecordSeen fs i).1 j).sendCalled = false ∧
    lookupFile (RecordSeen (RecordSeen fs i).1 j).1.files (GUID2Hash j.GUID) =
      some j.Link := by
  have hsha : GUID2Hash i.GUID = GUID2Hash j.GUID := by rw [hg]
  have hfiles : (RecordSeen fs i).1.files =
      (GUID2Hash i.GUID, i.Link) :: fs.files := by
    simp [RecordSeen, hw]
  have hcont : containsFile (RecordSeen fs i).1.files (GUID2Hash j.GUID) =
      true := by
    rw [hfiles, ← hsha]
    simp [containsFile, lookupFile]
  have hseen : HasSeen (RecordSeen fs i).1 j = true :=
    hasSeen_of_containsFile _ _ hcont
  refine ⟨by simp [HasSeen, hsha], hseen, ?_, ?_⟩
  · simp [processItem, hseen]
  · have hw2 : (RecordSeen fs i).1.writeFail (GUID2Hash j.GUID) = false := by
      rw [recordSeen_writeFail, ← hsha]; exact hw
    exact lookup_recordSeen (RecordSeen fs i).1 j hw2

/-- Witness for C10 with two concrete entries sharing a GUID but differing
in link, title and content. -/
theorem seen_identity_guid_only_witness :
    HasSeen (RecordSeen cleanFS sampleItem).1 sampleItem2 = true ∧
    (processItem failSend (RecordSeen cleanFS sampleItem).1
        sampleItem2).sendCalled = false :=
  ⟨(seen_identity_guid_only failSend cleanFS sampleItem sampleItem2
      rfl rfl).2.1,
   (seen_identity_guid_only failSend cleanFS sampleItem sampleItem2
      rfl rfl).2.2.1⟩

end Rss2Email
